import Mathlib

/-!
Verification of the prediction pipeline of the Image-Classification-API
repository (FastAPI + ONNX image classification service).

The development shallowly embeds the core of the service:

* `app/litemodel.py` — the `ModelPredictor` singleton: model loading
  (`_load_model`), the loaded-flag discipline (`is_loaded`), preprocessing
  (normalize / transpose / batch), and postprocessing (argsort-based
  ranking, confidence threshold, top-K truncation, pydantic-validated
  `PredictionResult` construction).
* `app/main.py` — the `/predict` endpoint's validation ladder (extension,
  size, decode) and its error taxonomy (HTTP 400 / 413 / 500).
* `app/schemas.py` — `PredictionResult` with its `confidence` field
  constrained to [0,1] (pydantic `ge=0.0, le=1.0`).
* `app/config.py` — the default settings.

Python floats are modelled as exact rationals (`ℚ`); Python's
`round(x, 4)` is modelled as round-half-to-even at 4 decimal places,
matching `round`'s documented banker's rounding.  `np.argsort` is
modelled as a stable ascending argsort: one deterministic refinement of
NumPy's default sort, whose order among exactly equal keys is
unspecified above the small-array insertion-sort regime.  No claim
theorem asserts a tie order of the program: the theorems below depend on
the argsort output only through the score values at its indices, and the
one tie-order counterexample uses a 2-element array, on which NumPy's
sort is an insertion sort and demonstrably agrees with the model.
Wall-clock timing (`inference_time_ms`) is outside the embedding.
-/

namespace ImageAPI

/-! ## Python primitives: round, strip, lower, pathlib suffix -/

/-- Round-half-to-even of a rational to an integer, the rounding mode of
Python's builtin `round`.  Stated on the numerator and denominator so the
kernel can evaluate it: the fractional part `q - ⌊q⌋` is compared with
`1/2` through `2 * (q.num - ⌊q⌋ * q.den)` versus `q.den`. -/
def roundHalfEven (q : ℚ) : ℤ :=
  if 2 * (q.num - q.floor * q.den) < (q.den : ℤ) then q.floor
  else if (q.den : ℤ) < 2 * (q.num - q.floor * q.den) then q.floor + 1
  else if q.floor % 2 = 0 then q.floor else q.floor + 1

/-- Python `round(x, 4)` on the exact-rational model of floats
(`mkRat` keeps the definition kernel-computable). -/
def pyRound4 (x : ℚ) : ℚ := mkRat (roundHalfEven (mkRat (x.num * 10000) x.den)) 10000

/-- Python `str.strip()` on a list of characters: drop whitespace from
both ends. -/
def pyStripL (cs : List Char) : List Char :=
  ((cs.dropWhile Char.isWhitespace).reverse.dropWhile Char.isWhitespace).reverse

/-- Python `str.strip()`. -/
def pyStrip (s : String) : String := String.mk (pyStripL s.toList)

/-- Python `str.lower()` (the filenames involved are ASCII). -/
def pyLower (s : String) : String := String.mk (s.toList.map Char.toLower)

/-- Split a character list on `'/'` (the separator `pathlib` uses for the
final path component). -/
def splitSlash : List Char → List (List Char)
  | [] => [[]]
  | c :: rest =>
    let r := splitSlash rest
    if c = '/' then [] :: r
    else (c :: r.headD []) :: r.tail

/-- Final path component of a filename, as `pathlib.PurePath.name`
computes it for the plain filenames sent in multipart uploads. -/
def lastComponent (cs : List Char) : List Char := (splitSlash cs).getLastD []

/-- Index (from the front) of the last `'.'` of a character list, the
`name.rfind('.')` step of `pathlib.PurePath.suffix`. -/
def lastDotIdx : List Char → Option ℕ
  | [] => none
  | c :: rest =>
    match lastDotIdx rest with
    | some i => some (i + 1)
    | none => if c = '.' then some 0 else none

/-- Model of `pathlib.PurePath(filename).suffix`: the substring from the
last dot of the final component, empty when the name has no dot, starts
with its only dot, or ends with the dot. -/
def pySuffix (filename : String) : String :=
  let name := lastComponent filename.toList
  match lastDotIdx name with
  | none => ""
  | some i => if 0 < i ∧ i + 1 < name.length then String.mk (name.drop i) else ""

/-! ## Data model: schemas.py -/

/-- Single prediction result (`app/schemas.py`, `PredictionResult`). -/
structure PredictionResult where
  class_name : String
  confidence : ℚ
deriving DecidableEq, Repr

/-- Decidable equality for `Except`, so concrete runs of the fallible
operations can be checked by `decide`. -/
instance {ε α : Type} [DecidableEq ε] [DecidableEq α] : DecidableEq (Except ε α) := fun x y =>
  match x, y with
  | .ok a, .ok b =>
    if h : a = b then .isTrue (by rw [h]) else .isFalse (by intro he; cases he; exact h rfl)
  | .error a, .error b =>
    if h : a = b then .isTrue (by rw [h]) else .isFalse (by intro he; cases he; exact h rfl)
  | .ok _, .error _ => .isFalse (by intro he; cases he)
  | .error _, .ok _ => .isFalse (by intro he; cases he)

/-- Message carried by a pydantic `ValidationError` on the `confidence`
field (modelled as a fixed string; the exact text is irrelevant, only
that it is not the not-loaded message). -/
def validationErrorMsg : String := "1 validation error for PredictionResult: confidence"

/-- Constructing a `PredictionResult` runs pydantic validation of the
`confidence` field (`Field(..., ge=0.0, le=1.0)`): out-of-range values
raise a `ValidationError` instead of being clamped. -/
def mkPredictionResult (name : String) (conf : ℚ) : Except String PredictionResult :=
  if 0 ≤ conf ∧ conf ≤ 1 then .ok ⟨name, conf⟩ else .error validationErrorMsg

/-! ## Postprocessing: litemodel.py lines 129-151 -/

/-- Stable insertion of index `i` into an already ascending index list:
`i` goes before the first index whose score is not strictly below
`i`'s score. -/
def argInsert (s : List ℚ) (i : ℕ) : List ℕ → List ℕ
  | [] => [i]
  | j :: rest => if s.getD j 0 < s.getD i 0 then j :: argInsert s i rest else i :: j :: rest

/-- Stable ascending argsort of a list of index keys. -/
def argInsertAll (s : List ℚ) (ls : List ℕ) : List ℕ := ls.foldr (argInsert s) []

/-- Model of `np.argsort(scores)`: indices of `scores` sorted so the
scores are ascending.  Among exactly equal scores this model keeps the
original index order (stability); NumPy's default quicksort guarantees
no particular tie order above its small-array insertion-sort cutoff, so
the model's tie order is a deterministic refinement, faithful on small
arrays, and no theorem below states it as a property of the program. -/
def argsortAsc (s : List ℚ) : List ℕ := argInsertAll s (List.range s.length)

/-- Model of `np.argsort(predictions_raw)[::-1]` (line 136). -/
def argsortDesc (s : List ℚ) : List ℕ := (argsortAsc s).reverse

/-- The `top_indices` of lines 135-136: `top_k = min(len(raw), max_predictions)`
then `argsort(raw)[::-1][:top_k]`. -/
def topIndices (s : List ℚ) (maxPredictions : ℕ) : List ℕ :=
  (argsortDesc s).take (min s.length maxPredictions)

/-- Label resolution of line 144: the class-name table entry when the
index is in bounds, else the string form of the index. -/
def labelOf (classNames : List String) (idx : ℕ) : String :=
  if idx < classNames.length then classNames.getD idx "" else toString idx

/-- The `for idx in top_indices` loop of lines 140-149: keep indices whose
raw score passes the threshold, build a validated `PredictionResult` with
the score rounded to 4 decimals; a pydantic failure aborts the loop. -/
def rankLoop (s : List ℚ) (classNames : List String) (threshold : ℚ) :
    List ℕ → Except String (List PredictionResult)
  | [] => .ok []
  | idx :: rest =>
    let confidence := s.getD idx 0
    if threshold ≤ confidence then
      match mkPredictionResult (labelOf classNames idx) (pyRound4 confidence) with
      | .ok p => (rankLoop s classNames threshold rest).map (p :: ·)
      | .error e => .error e
    else rankLoop s classNames threshold rest

/-- The whole postprocessing step of `ModelPredictor.predict`
(lines 129-151): rank raw scores, threshold, truncate to top-K. -/
def rank (s : List ℚ) (classNames : List String) (threshold : ℚ)
    (maxPredictions : ℕ) : Except String (List PredictionResult) :=
  rankLoop s classNames threshold (topIndices s maxPredictions)

/-! ## Preprocessing: litemodel.py lines 103-122 -/

/-- A decoded RGB pixel buffer as `np.array(pil_image)` produces it:
rows of columns of 3-sample pixels, each sample an 8-bit value.
Well-formedness (shape `H × W × 3`, samples `< 256`) is a hypothesis of
the theorems, as it is a guarantee of the decoder. -/
abbrev Pixels : Type := List (List (List ℕ))

/-- Shape and sample-range well-formedness of a decoded `H × W` RGB
buffer. -/
def PixelsWF (H W : ℕ) (a : Pixels) : Prop :=
  a.length = H ∧ ∀ row ∈ a, row.length = W ∧ ∀ px ∈ row, px.length = 3 ∧ ∀ v ∈ px, v < 256

instance (H W : ℕ) (a : Pixels) : Decidable (PixelsWF H W a) := by
  unfold PixelsWF
  infer_instance

/-- Lines 115-116: `np.array(image_resized).astype(np.float32) / 255.0`,
elementwise division of each 8-bit sample by 255. -/
def normalizePixels (a : Pixels) : List (List (List ℚ)) :=
  a.map (fun row => row.map (fun px => px.map (fun v => mkRat (Int.ofNat v) 255)))

/-- Line 119: `np.transpose(input_data, (2, 0, 1))` on an
`(H, W, C)`-shaped nested list, producing `(C, H, W)`. -/
def npTranspose201 (a : List (List (List ℚ))) : List (List (List ℚ)) :=
  (List.range ((a.headD []).headD []).length).map
    (fun c => a.map (fun row => row.map (fun px => px.getD c 0)))

/-- Lines 115-122 together: normalize, transpose `HWC → CHW`, and
`np.expand_dims(input_data, axis=0)` (prepend a batch dimension). -/
def toTensor (a : Pixels) : List (List (List (List ℚ))) :=
  [npTranspose201 (normalizePixels a)]

/-! ## Configuration: config.py -/

/-- The settings fields the prediction pipeline reads (`app/config.py`). -/
structure Settings where
  model_confidence_threshold : ℚ
  max_predictions : ℕ
  max_upload_size : ℕ
  allowed_extensions : List String

/-- Default values of `Settings` (config.py lines 12-17). -/
def defaultSettings : Settings :=
  { model_confidence_threshold := mkRat 1 4
    max_predictions := 5
    max_upload_size := 10 * 1024 * 1024
    allowed_extensions := [".jpg", ".jpeg", ".png", ".webp"] }

/-! ## Model session and lifecycle: litemodel.py lines 14-84 -/

/-- Metadata of one declared model input
(`session.get_inputs()[i]`): its name and its declared shape, where a
dimension is `some n` when it is a fixed integer and `none` when it is
symbolic (a string or `None` in ONNX). -/
structure InputMeta where
  name : String
  shape : List (Option ℤ)

/-- Opaque handle to a loaded `ort.InferenceSession`: its declared
inputs, and the backend computation `run`, mapping the input tensor to
the first output array (a batch-rows × classes matrix; line 125 passes
one output name, line 132 takes `outputs[0][0]`). -/
structure SessionHandle where
  inputs : List InputMeta
  run : List (List (List (List ℚ))) → List (List ℚ)

/-- The mutable class attributes of the `ModelPredictor` singleton
(litemodel.py lines 19-25). -/
structure PredictorState where
  session : Option SessionHandle
  class_names : List String
  input_name : String
  input_height : ℤ
  input_width : ℤ
  model_loaded : Bool

/-- The initial class-attribute values (lines 20-25). -/
def initialState : PredictorState :=
  { session := none, class_names := [], input_name := "",
    input_height := 224, input_width := 224, model_loaded := false }

/-- Environment a load attempt runs against: whether the model file
exists, what `ort.InferenceSession` construction yields, and the lines of
the class-label file (`none` when the file is absent). -/
structure LoadEnv where
  model_exists : Bool
  create_session : Except String SessionHandle
  label_file : Option (List String)

/-- Message of the `IndexError` raised by an out-of-bounds list access. -/
def indexErrorMsg : String := "IndexError: index out of range"

/-- Message of the `FileNotFoundError` of litemodel.py line 44. -/
def modelNotFoundMsg : String := "Model file not found"

/-- Model of `ModelPredictor._load_model` (lines 37-80).  Returns the
state after the attempt together with `ok` or the raised error; partial
mutations made before a failure persist (Python assigns `self._session`
and the shape fields as it goes), but `_model_loaded := true` is the very
last assignment (line 75), reached only when every step succeeded. -/
def loadModel (env : LoadEnv) (st : PredictorState) : PredictorState × Except String Unit :=
  if env.model_exists = false then (st, .error modelNotFoundMsg)
  else
    match env.create_session with
    | .error e => (st, .error e)
    | .ok sess =>
      let st1 := { st with session := some sess }
      match sess.inputs[0]? with
      | none => (st1, .error indexErrorMsg)
      | some meta =>
        let st2 := { st1 with input_name := meta.name }
        match meta.shape[2]? with
        | none => (st2, .error indexErrorMsg)
        | some d2 =>
          let st3 := { st2 with input_height := d2.getD 224 }
          match meta.shape[3]? with
          | none => (st3, .error indexErrorMsg)
          | some d3 =>
            let st4 := { st3 with input_width := d3.getD 224 }
            let st5 := { st4 with class_names :=
              match env.label_file with
              | some lines => lines.map pyStrip
              | none => [] }
            ({ st5 with model_loaded := true }, .ok ())

/-- Model of `ModelPredictor.__init__` (lines 32-35): load only when the
`_model_loaded` class attribute is still false. -/
def initPredictor (env : LoadEnv) (st : PredictorState) : PredictorState × Except String Unit :=
  if st.model_loaded = true then (st, .ok ()) else loadModel env st

/-- Model of `ModelPredictor.is_loaded` (lines 82-84):
`self._model_loaded and self._session is not None`. -/
def is_loaded (st : PredictorState) : Bool := st.model_loaded && st.session.isSome

/-- Message of the `RuntimeError` of litemodel.py line 98. -/
def notLoadedMsg : String := "Model not loaded"

/-- Model of `ModelPredictor.predict` (lines 86-151): guard on
`is_loaded`, resize (a property of PIL, passed as an oracle), build the
input tensor, run the backend, and rank the first output row.  The
method reads state but never writes it; wall-clock
`inference_time` is outside the embedding. -/
def modelPredict (settings : Settings) (resize : Pixels → ℤ → ℤ → Pixels)
    (st : PredictorState) (img : Pixels) : Except String (List PredictionResult) :=
  match st.model_loaded, st.session with
  | true, some sess =>
    let resized := resize img st.input_width st.input_height
    let input_data := toTensor resized
    let predictions_raw := (sess.run input_data).getD 0 []
    rank predictions_raw st.class_names
      settings.model_confidence_threshold settings.max_predictions
  | _, _ => .error notLoadedMsg

/-- Model of `ModelPredictor.get_model_info` (lines 153-163): `none`
models the `loaded: False` dictionary; otherwise the type string, the
class count and the input shape.  Pure read of the state. -/
def get_model_info (st : PredictorState) : Option (String × ℕ × List ℤ) :=
  if is_loaded st = false then none
  else some ("YOLO11l Classification (ONNX)", st.class_names.length,
    [1, 3, st.input_height, st.input_width])

/-! ## The /predict endpoint: main.py lines 149-235 and error handlers -/

/-- Response model of a successful prediction (`app/schemas.py`,
`PredictionResponse`; the wall-clock `inference_time_ms` field is outside
the embedding). -/
structure PredictionResponse where
  success : Bool
  predictions : List PredictionResult
  model_version : String
deriving DecidableEq, Repr

/-- Client-visible outcome of a `/predict` request: either the JSON
response, or an HTTP error with the `detail` string the client receives.
An `HTTPException(status, detail)` raised by the endpoint is rendered by
the framework's HTTP-exception handler as a body carrying exactly
`detail` — the handler registered for 500 (`internal_error_handler`,
main.py lines 334-346) is installed by Starlette as the server-error
handler and receives only exceptions that escape the route uncaught,
which the endpoint's catch-all (lines 227-235) prevents. -/
inductive PredictOutcome where
  | response (r : PredictionResponse)
  | httpError (statusCode : ℕ) (detail : String)
deriving DecidableEq, Repr

/-- Detail of the 400 raised on a disallowed extension (main.py
lines 167-170; the set formatting of the f-string is modelled as a
comma-separated join). -/
def invalidTypeDetail (S : Settings) : String :=
  "Invalid file type. Allowed: " ++ String.intercalate ", " S.allowed_extensions

/-- Detail of the 413 raised on an oversize upload (main.py
lines 175-181; the megabyte formatting is modelled as the byte count). -/
def tooLargeDetail (S : Settings) : String :=
  "File too large. Max size: " ++ toString S.max_upload_size ++ " bytes"

/-- Body detail produced by `internal_error_handler` (main.py line 344). -/
def internalHandlerDetail : String := "An unexpected error occurred"

/-- Model of the `/predict` endpoint body (main.py lines 161-235).
`decode` is the PIL `Image.open` + RGB-convert oracle (its failure
message feeds the 400 of lines 190-193); `runModel` is step 4, the
`model_predictor.predict` call, whose failure is caught by the catch-all
and re-raised as `HTTPException(500, str(e))` (line 235). -/
def predictEndpoint (S : Settings) (decode : List (Fin 256) → Except String Pixels)
    (runModel : Pixels → Except String (List PredictionResult))
    (filename : String) (contents : List (Fin 256)) : PredictOutcome :=
  if pyLower (pySuffix filename) ∈ S.allowed_extensions then
    if S.max_upload_size < contents.length then
      .httpError 413 (tooLargeDetail S)
    else
      match decode contents with
      | .error e => .httpError 400 ("Invalid image file: " ++ e)
      | .ok image =>
        match runModel image with
        | .error e => .httpError 500 e
        | .ok preds => .response { success := true, predictions := preds,
                                   model_version := "yolo11l-cls" }
  else .httpError 400 (invalidTypeDetail S)

/-! ## Lemmas about the rounding model -/

lemma ratFloor_eq (q : ℚ) : q.floor = ⌊q⌋ := by
  rw [Rat.floor_def', Rat.floor_def]

lemma twiceFrac_lt_iff (q : ℚ) (f : ℤ) :
    (2 * (q.num - f * q.den) < (q.den : ℤ)) ↔ (q - (f : ℚ) < 1/2) := by
  have hd : (0 : ℚ) < (q.den : ℚ) := by exact_mod_cast q.den_pos
  rw [sub_lt_iff_lt_add]
  conv_rhs => rw [← Rat.num_div_den q]
  rw [div_lt_iff₀ hd]
  constructor
  · intro h
    have h' : ((2 * q.num : ℤ) : ℚ) < ((2 * (f * q.den) + q.den : ℤ) : ℚ) := by
      exact_mod_cast (by linarith : (2 * q.num : ℤ) < 2 * (f * q.den) + q.den)
    push_cast at h'
    linarith
  · intro h
    have h' : (2 * q.num : ℚ) < 2 * ((f : ℚ) * (q.den : ℚ)) + (q.den : ℚ) := by linarith
    have h'' : (2 * q.num : ℤ) < 2 * (f * q.den) + q.den := by exact_mod_cast h'
    linarith

lemma twiceFrac_gt_iff (q : ℚ) (f : ℤ) :
    ((q.den : ℤ) < 2 * (q.num - f * q.den)) ↔ (1/2 < q - (f : ℚ)) := by
  have hd : (0 : ℚ) < (q.den : ℚ) := by exact_mod_cast q.den_pos
  rw [lt_sub_iff_add_lt]
  conv_rhs => rw [← Rat.num_div_den q]
  rw [lt_div_iff₀ hd]
  constructor
  · intro h
    have h' : ((2 * (f * q.den) + q.den : ℤ) : ℚ) < ((2 * q.num : ℤ) : ℚ) := by
      exact_mod_cast (by linarith : (2 * (f * q.den) + q.den : ℤ) < 2 * q.num)
    push_cast at h'
    linarith
  · intro h
    have h' : 2 * ((f : ℚ) * (q.den : ℚ)) + (q.den : ℚ) < (2 * q.num : ℚ) := by linarith
    have h'' : (2 * (f * q.den) + q.den : ℤ) < 2 * q.num := by exact_mod_cast h'
    linarith

/-- Characterization of `roundHalfEven` by the fractional part. -/
lemma roundHalfEven_eq (q : ℚ) :
    roundHalfEven q =
      if q - (⌊q⌋ : ℚ) < 1/2 then ⌊q⌋
      else if 1/2 < q - (⌊q⌋ : ℚ) then ⌊q⌋ + 1
      else if ⌊q⌋ % 2 = 0 then ⌊q⌋ else ⌊q⌋ + 1 := by
  unfold roundHalfEven
  simp only [ratFloor_eq]
  have h1 := twiceFrac_lt_iff q ⌊q⌋
  have h2 := twiceFrac_gt_iff q ⌊q⌋
  split_ifs <;> tauto

lemma roundHalfEven_bounds (q : ℚ) :
    ⌊q⌋ ≤ roundHalfEven q ∧ roundHalfEven q ≤ ⌊q⌋ + 1 := by
  rw [roundHalfEven_eq]
  split_ifs <;> omega

lemma roundHalfEven_mono {q r : ℚ} (h : q ≤ r) : roundHalfEven q ≤ roundHalfEven r := by
  have hf : ⌊q⌋ ≤ ⌊r⌋ := Int.floor_le_floor h
  rcases lt_or_eq_of_le hf with hlt | heq
  · calc roundHalfEven q ≤ ⌊q⌋ + 1 := (roundHalfEven_bounds q).2
    _ ≤ ⌊r⌋ := by omega
    _ ≤ roundHalfEven r := (roundHalfEven_bounds r).1
  · rw [roundHalfEven_eq, roundHalfEven_eq, ← heq]
    have hfr : q - (⌊q⌋ : ℚ) ≤ r - (⌊q⌋ : ℚ) := by linarith
    split_ifs <;> first | omega | linarith

lemma le_roundHalfEven_of_int_le {z : ℤ} {q : ℚ} (h : (z : ℚ) ≤ q) :
    z ≤ roundHalfEven q :=
  le_trans (Int.le_floor.2 h) (roundHalfEven_bounds q).1

/-- The computable `pyRound4` agrees with rounding `x * 10000` and
scaling back. -/
lemma pyRound4_eq (x : ℚ) :
    pyRound4 x = (roundHalfEven (x * 10000) : ℚ) / 10000 := by
  unfold pyRound4
  have harg : mkRat (x.num * 10000) x.den = x * 10000 := by
    rw [Rat.mkRat_eq_div]
    push_cast
    rw [mul_div_right_comm, Rat.num_div_den]
  rw [harg, Rat.mkRat_eq_div]
  norm_num

lemma pyRound4_mono {x y : ℚ} (h : x ≤ y) : pyRound4 x ≤ pyRound4 y := by
  rw [pyRound4_eq, pyRound4_eq]
  have : roundHalfEven (x * 10000) ≤ roundHalfEven (y * 10000) :=
    roundHalfEven_mono (by linarith)
  have h' : ((roundHalfEven (x * 10000) : ℚ)) ≤ ((roundHalfEven (y * 10000) : ℚ)) := by
    exact_mod_cast this
  linarith

/-- When the threshold is representable with 4 decimal places, rounding a
passing score cannot drop it below the threshold. -/
lemma le_pyRound4_of_4dp {t x : ℚ} {z : ℤ} (hz : t * 10000 = (z : ℚ)) (h : t ≤ x) :
    t ≤ pyRound4 x := by
  rw [pyRound4_eq, le_div_iff₀ (by norm_num : (0:ℚ) < 10000), hz]
  exact_mod_cast le_roundHalfEven_of_int_le (by rw [← hz]; nlinarith)

/-! ## Lemmas about the argsort model -/

/-- The strict ascending order `argsortAsc` produces: by score, ties by
original index (stability). -/
def ascRel (s : List ℚ) (i j : ℕ) : Prop :=
  s.getD i 0 < s.getD j 0 ∨ (s.getD i 0 = s.getD j 0 ∧ i < j)

lemma mem_argInsert {s : List ℚ} {i x : ℕ} {l : List ℕ} :
    x ∈ argInsert s i l ↔ x = i ∨ x ∈ l := by
  induction l with
  | nil => simp [argInsert]
  | cons j rest ih =>
    unfold argInsert
    split_ifs <;> simp [ih] <;> tauto

lemma pairwise_argInsert {s : List ℚ} {i : ℕ} {l : List ℕ}
    (hgt : ∀ j ∈ l, i < j) (hp : l.Pairwise (ascRel s)) :
    (argInsert s i l).Pairwise (ascRel s) := by
  induction l with
  | nil => simp [argInsert]
  | cons j rest ih =>
    rw [List.pairwise_cons] at hp
    obtain ⟨hj, hrest⟩ := hp
    unfold argInsert
    split_ifs with hlt
    · rw [List.pairwise_cons]
      refine ⟨?_, ih (fun k hk => hgt k (List.mem_cons_of_mem _ hk)) hrest⟩
      intro x hx
      rcases mem_argInsert.1 hx with rfl | hx'
      · exact Or.inl hlt
      · exact hj x hx'
    · rw [List.pairwise_cons]
      refine ⟨?_, List.pairwise_cons.2 ⟨hj, hrest⟩⟩
      intro x hx
      have hle : s.getD i 0 ≤ s.getD j 0 := le_of_not_lt hlt
      rcases List.mem_cons.1 hx with rfl | hx'
      · rcases lt_or_eq_of_le hle with h | h
        · exact Or.inl h
        · exact Or.inr ⟨h, hgt x (List.mem_cons_self _ _)⟩
      · rcases hj x hx' with h | ⟨heq, _⟩
        · exact Or.inl (lt_of_le_of_lt hle h)
        · rcases lt_or_eq_of_le (hle.trans (le_of_eq heq)) with h2 | h2
          · exact Or.inl h2
          · exact Or.inr ⟨h2, hgt x (List.mem_cons_of_mem _ hx')⟩

lemma mem_argInsertAll {s : List ℚ} {ls : List ℕ} {x : ℕ}
    (h : x ∈ argInsertAll s ls) : x ∈ ls := by
  induction ls with
  | nil => simpa [argInsertAll] using h
  | cons i rest ih =>
    rcases mem_argInsert.1 h with rfl | h'
    · exact List.mem_cons_self _ _
    · exact List.mem_cons_of_mem _ (ih h')

lemma pairwise_argInsertAll {s : List ℚ} {ls : List ℕ}
    (h : ls.Pairwise (· < ·)) : (argInsertAll s ls).Pairwise (ascRel s) := by
  induction ls with
  | nil => simp [argInsertAll]
  | cons i rest ih =>
    rw [List.pairwise_cons] at h
    exact pairwise_argInsert (fun j hj => h.1 j (mem_argInsertAll hj)) (ih h.2)

lemma pairwise_argsortAsc (s : List ℚ) : (argsortAsc s).Pairwise (ascRel s) :=
  pairwise_argInsertAll (List.pairwise_lt_range _)

/-- The `top_indices` of the code are strictly descending: by score, and
on exactly equal scores the higher class index comes first (the ascending
stable argsort is reversed). -/
lemma pairwise_topIndices (s : List ℚ) (k : ℕ) :
    (topIndices s k).Pairwise (fun a b => ascRel s b a) := by
  have h1 : (argsortDesc s).Pairwise (fun a b => ascRel s b a) := by
    rw [argsortDesc, List.pairwise_reverse]
    exact pairwise_argsortAsc s
  exact h1.sublist (List.take_sublist _ _)

/-! ## Lemmas about the ranking loop -/

lemma mkPredictionResult_ok {n : String} {c : ℚ} {p : PredictionResult}
    (h : mkPredictionResult n c = .ok p) : p = ⟨n, c⟩ ∧ 0 ≤ c ∧ c ≤ 1 := by
  unfold mkPredictionResult at h
  split_ifs at h with hc
  cases h
  exact ⟨rfl, hc⟩

lemma mkPredictionResult_error {n : String} {c : ℚ} {e : String}
    (h : mkPredictionResult n c = .error e) : e = validationErrorMsg ∧ ¬(0 ≤ c ∧ c ≤ 1) := by
  unfold mkPredictionResult at h
  split_ifs at h with hc
  cases h
  exact ⟨rfl, hc⟩

lemma mkPredictionResult_ok_of_valid {n : String} {c : ℚ} (hc : 0 ≤ c ∧ c ≤ 1) :
    mkPredictionResult n c = .ok ⟨n, c⟩ := by
  unfold mkPredictionResult
  rw [if_pos hc]

/-- A successful run of the ranking loop is exactly the map of the
result constructor over the threshold-passing indices, in order. -/
lemma rankLoop_ok_eq {s : List ℚ} {names : List String} {t : ℚ}
    {idxs : List ℕ} {res : List PredictionResult}
    (h : rankLoop s names t idxs = .ok res) :
    res = (idxs.filter (fun i => decide (t ≤ s.getD i 0))).map
      (fun i => ⟨labelOf names i, pyRound4 (s.getD i 0)⟩) := by
  induction idxs generalizing res with
  | nil =>
    simp only [rankLoop] at h
    cases h
    simp
  | cons idx rest ih =>
    rw [rankLoop] at h
    by_cases hpass : t ≤ s.getD idx 0
    · rw [if_pos hpass] at h
      rcases hmk : mkPredictionResult (labelOf names idx) (pyRound4 (s.getD idx 0)) with e | p
      · rw [hmk] at h
        cases h
      · rw [hmk] at h
        rcases hrec : rankLoop s names t rest with e' | res'
        · rw [hrec] at h
          simp only [Except.map] at h
          cases h
        · rw [hrec] at h
          simp only [Except.map] at h
          cases h
          have he := (mkPredictionResult_ok hmk).1
          simp only [List.filter_cons]
          rw [if_pos (decide_eq_true hpass), List.map_cons, ← ih hrec, he]
    · rw [if_neg hpass] at h
      simp only [List.filter_cons]
      rw [if_neg (by simpa using hpass)]
      exact ih h

/-- A successful run certifies that every threshold-passing index in the
loop had an in-range rounded confidence. -/
lemma rankLoop_ok_valid {s : List ℚ} {names : List String} {t : ℚ}
    {idxs : List ℕ} {res : List PredictionResult}
    (h : rankLoop s names t idxs = .ok res) :
    ∀ i ∈ idxs, t ≤ s.getD i 0 →
      0 ≤ pyRound4 (s.getD i 0) ∧ pyRound4 (s.getD i 0) ≤ 1 := by
  induction idxs generalizing res with
  | nil =>
    intro i hi
    cases hi
  | cons idx rest ih =>
    rw [rankLoop] at h
    intro i hi hpassi
    by_cases hpass : t ≤ s.getD idx 0
    · rw [if_pos hpass] at h
      rcases hmk : mkPredictionResult (labelOf names idx) (pyRound4 (s.getD idx 0)) with e | p
      · rw [hmk] at h
        cases h
      · rw [hmk] at h
        rcases hrec : rankLoop s names t rest with e' | res'
        · rw [hrec] at h
          simp only [Except.map] at h
          cases h
        · rcases List.mem_cons.1 hi with rfl | hi'
          · exact (mkPredictionResult_ok hmk).2
          · exact ih hrec i hi' hpassi
    · rw [if_neg hpass] at h
      rcases List.mem_cons.1 hi with rfl | hi'
      · exact absurd hpassi hpass
      · exact ih h i hi' hpassi

/-- The only error the ranking loop can raise is the pydantic validation
error. -/
lemma rankLoop_error_msg {s : List ℚ} {names : List String} {t : ℚ}
    {idxs : List ℕ} {e : String}
    (h : rankLoop s names t idxs = .error e) : e = validationErrorMsg := by
  induction idxs generalizing e with
  | nil =>
    simp only [rankLoop] at h
    cases h
  | cons idx rest ih =>
    rw [rankLoop] at h
    by_cases hpass : t ≤ s.getD idx 0
    · rw [if_pos hpass] at h
      rcases hmk : mkPredictionResult (labelOf names idx) (pyRound4 (s.getD idx 0)) with e' | p
      · rw [hmk] at h
        cases h
        exact (mkPredictionResult_error hmk).1
      · rw [hmk] at h
        rcases hrec : rankLoop s names t rest with e'' | res'
        · rw [hrec] at h
          simp only [Except.map] at h
          cases h
          exact ih hrec
        · rw [hrec] at h
          simp only [Except.map] at h
          cases h
    · rw [if_neg hpass] at h
      exact ih h

/-! ## Lemmas about the load state machine -/

/-- A successful load attempt has set the flag, installed a session, and
filled the class names from the label file. -/
lemma loadModel_ok_fields {env : LoadEnv} {st : PredictorState}
    (h : (loadModel env st).2 = .ok ()) :
    (loadModel env st).1.model_loaded = true ∧
    (loadModel env st).1.session.isSome = true ∧
    (loadModel env st).1.class_names =
      (match env.label_file with
       | some lines => lines.map pyStrip
       | none => []) := by
  rcases env with ⟨ex, cs, lf⟩
  cases ex
  · simp [loadModel] at h
  · rcases cs with e | sess
    · simp [loadModel] at h
    · rcases hin : sess.inputs[0]? with _ | meta
      · simp [loadModel, hin] at h
      · rcases h2 : meta.shape[2]? with _ | d2
        · simp [loadModel, hin, h2] at h
        · rcases h3 : meta.shape[3]? with _ | d3
          · simp [loadModel, hin, h2, h3] at h
          · simp [loadModel, hin, h2, h3]

/-- A failed load attempt leaves the loaded flag exactly as it was. -/
lemma loadModel_error_keeps_flag {env : LoadEnv} {st : PredictorState} {e : String}
    (h : (loadModel env st).2 = .error e) :
    (loadModel env st).1.model_loaded = st.model_loaded := by
  rcases env with ⟨ex, cs, lf⟩
  cases ex
  · simp [loadModel]
  · rcases cs with e' | sess
    · simp [loadModel]
    · rcases hin : sess.inputs[0]? with _ | meta
      · simp [loadModel, hin]
      · rcases h2 : meta.shape[2]? with _ | d2
        · simp [loadModel, hin, h2]
        · rcases h3 : meta.shape[3]? with _ | d3
          · simp [loadModel, hin, h2, h3]
          · simp [loadModel, hin, h2, h3] at h

/-- The flag can only come out true from a load attempt if it went in
true or the attempt succeeded in full. -/
lemma loadModel_flag_true {env : LoadEnv} {st : PredictorState}
    (h : (loadModel env st).1.model_loaded = true) :
    st.model_loaded = true ∨ (loadModel env st).2 = .ok () := by
  rcases hr : (loadModel env st).2 with e | u
  · exact Or.inl ((loadModel_error_keeps_flag hr) ▸ h)
  · cases u
    exact Or.inr rfl

/-- Whether a load attempt succeeds does not depend on the label file. -/
lemma loadModel_ok_label_independent (env : LoadEnv) (st : PredictorState)
    (lf : Option (List String)) :
    ((loadModel { env with label_file := lf } st).2 = .ok ()) ↔
    ((loadModel env st).2 = .ok ()) := by
  rcases env with ⟨ex, cs, lf'⟩
  cases ex
  · simp [loadModel]
  · rcases cs with e | sess
    · simp [loadModel]
    · rcases hin : sess.inputs[0]? with _ | meta
      · simp [loadModel, hin]
      · rcases h2 : meta.shape[2]? with _ | d2
        · simp [loadModel, hin, h2]
        · rcases h3 : meta.shape[3]? with _ | d3
          · simp [loadModel, hin, h2, h3]
          · simp [loadModel, hin, h2, h3]

/-! ## Claim C1: top-K truncation, threshold filtering -/

/-- Claim C1 (counterexample): the claim as stated fails for thresholds
that are not multiples of `1/10000`.  With raw score and threshold both
`0.25003`, the score passes the `>=`-threshold filter but the published
confidence is `round(0.25003, 4) = 0.25`, strictly below the threshold,
so "every returned entry has confidence >= threshold" is false. -/
theorem rank_conf_below_threshold_cex :
    rank [mkRat 25003 100000] [] (mkRat 25003 100000) 5 =
      .ok [⟨"0", mkRat 1 4⟩] ∧
    ¬ (mkRat 25003 100000 ≤ mkRat 1 4) := by
  constructor
  · decide
  · decide

/-- Claim C1 (amended): for every raw score vector, label table, threshold
and maxResults, a successful ranking returns at most `maxResults` entries;
every returned entry stems from a top-K raw score `≥ threshold`, its
confidence being that score rounded to 4 decimals; whenever the threshold
itself has at most 4 decimal places (as the default `0.25` does) every
returned confidence is `≥ threshold`; and entries below threshold are
dropped, not zero-filled — the length equals the count of passing top-K
indices, so the list may be shorter than `maxResults` or empty. -/
theorem rank_topk_threshold (s : List ℚ) (names : List String) (t : ℚ) (k : ℕ)
    (res : List PredictionResult) (h : rank s names t k = .ok res) :
    res.length ≤ k ∧
    (∀ p ∈ res, ∃ i ∈ topIndices s k,
      t ≤ s.getD i 0 ∧ p.confidence = pyRound4 (s.getD i 0)) ∧
    ((∃ z : ℤ, t * 10000 = (z : ℚ)) → ∀ p ∈ res, t ≤ p.confidence) ∧
    res.length =
      ((topIndices s k).filter (fun i => decide (t ≤ s.getD i 0))).length := by
  have heq := rankLoop_ok_eq h
  have hmem : ∀ p ∈ res, ∃ i ∈ topIndices s k,
      t ≤ s.getD i 0 ∧ p.confidence = pyRound4 (s.getD i 0) := by
    intro p hp
    rw [heq] at hp
    obtain ⟨i, hi, rfl⟩ := List.mem_map.1 hp
    obtain ⟨hiTop, hpass⟩ := List.mem_filter.1 hi
    exact ⟨i, hiTop, of_decide_eq_true hpass, rfl⟩
  refine ⟨?_, hmem, ?_, ?_⟩
  · rw [heq, List.length_map]
    calc ((topIndices s k).filter _).length
        ≤ (topIndices s k).length := List.length_filter_le _ _
      _ ≤ k := by
          simp only [topIndices, List.length_take]
          omega
  · rintro ⟨z, hz⟩ p hp
    obtain ⟨i, _, hpass, hconf⟩ := hmem p hp
    rw [hconf]
    exact le_pyRound4_of_4dp hz hpass
  · rw [heq, List.length_map]

/-- Claim C1 witness: on the concrete score vector `[0.5]` with threshold
`0.25` and maxResults `5` the returned list has at most 5 entries. -/
theorem rank_topk_threshold_witness :
    ([⟨"cat", mkRat 1 2⟩] : List PredictionResult).length ≤ 5 :=
  (rank_topk_threshold [mkRat 1 2] ["cat"] (mkRat 1 4) 5
    [⟨"cat", mkRat 1 2⟩] (by decide)).1

/-! ## Claim C2: descending order and tie-breaking -/

/-- Claim C2 (counterexample): with two classes of exactly equal score
`0.5`, the code returns class index 1 (label "b") first, not the lower
class index 0 (label "a"): on a 2-element array `np.argsort` is an
insertion sort and places the lower index first in its ascending output,
and the `[::-1]` reversal flips that order. -/
theorem rank_tie_order_cex :
    rank [mkRat 1 2, mkRat 1 2] ["a", "b"] 0 5 =
      .ok [⟨"b", mkRat 1 2⟩, ⟨"a", mkRat 1 2⟩] ∧
    rank [mkRat 1 2, mkRat 1 2] ["a", "b"] 0 5 ≠
      .ok [⟨"a", mkRat 1 2⟩, ⟨"b", mkRat 1 2⟩] := by
  constructor
  · decide
  · decide

/-- Claim C2 (amended): a successful ranking is sorted descending by
confidence.  The claimed lower-class-index-first rule on exact ties is
false — the code reverses the ascending argsort output, so ties do not
come out lower-index-first (the counterexample shows the higher index
first on a 2-element array) — and since NumPy's default sort guarantees
no particular tie order on larger arrays, no universal tie order is
asserted in its place.  The sortedness proved here depends on the
argsort output only through its score values, so it holds for any tie
order the backend sort produces. -/
theorem rank_sorted_desc (s : List ℚ) (names : List String) (t : ℚ) (k : ℕ)
    (res : List PredictionResult) (h : rank s names t k = .ok res) :
    res.Pairwise (fun p q => q.confidence ≤ p.confidence) := by
  rw [rankLoop_ok_eq h]
  refine List.Pairwise.map _ ?_
    ((pairwise_topIndices s k).sublist (List.filter_sublist _))
  intro a b hab
  have hle : s.getD b 0 ≤ s.getD a 0 := by
    rcases hab with h1 | ⟨h1, _⟩
    · exact le_of_lt h1
    · exact le_of_eq h1
  exact pyRound4_mono hle

/-- Claim C2 witness: on the concrete scores `[0.1, 0.3, 0.2]` the
output confidences are pairwise descending. -/
theorem rank_sorted_desc_witness :
    ([⟨"b", mkRat 3 10⟩, ⟨"c", mkRat 1 5⟩] : List PredictionResult).Pairwise
      (fun p q => q.confidence ≤ p.confidence) :=
  rank_sorted_desc [mkRat 1 10, mkRat 3 10, mkRat 1 5] ["a", "b", "c"]
    (mkRat 3 20) 2 [⟨"b", mkRat 3 10⟩, ⟨"c", mkRat 1 5⟩] (by decide)

/-! ## Claim C5: preprocessing shape and value bounds -/

/-- Claim C5: for every valid `H × W` RGB pixel buffer (positive target
shape), the preprocessing step produces a tensor of exactly shape
`(1, 3, H, W)` whose every value is an 8-bit sample divided by 255, hence
in `[0, 1]` — normalize, transpose `(H,W,C) → (C,H,W)`, prepend batch
dimension 1. -/
theorem toTensor_shape_unit (H W : ℕ) (a : Pixels) (hH : 0 < H) (hW : 0 < W)
    (hwf : PixelsWF H W a) :
    (toTensor a).length = 1 ∧
    ∀ chs ∈ toTensor a, chs.length = 3 ∧
      ∀ ch ∈ chs, ch.length = H ∧
        ∀ row ∈ ch, row.length = W ∧
          ∀ x ∈ row, (0 ≤ x ∧ x ≤ 1) ∧ ∃ v : ℕ, v < 256 ∧ x = (v : ℚ) / 255 := by
  obtain ⟨hlen, hrows⟩ := hwf
  have hchan : (((normalizePixels a).headD []).headD []).length = 3 := by
    rcases a with _ | ⟨r0, arest⟩
    · simp at hlen
      omega
    · obtain ⟨hr0len, hr0px⟩ := hrows r0 (by simp)
      rcases r0 with _ | ⟨px0, r0rest⟩
      · simp at hr0len
        omega
      · obtain ⟨hpx0len, _⟩ := hr0px px0 (by simp)
        have heads : (((normalizePixels ((px0 :: r0rest) :: arest)).headD []).headD []) =
            px0.map (fun v => mkRat (Int.ofNat v) 255) := rfl
        rw [heads, List.length_map, hpx0len]
  refine ⟨rfl, ?_⟩
  intro chs hchs
  have hchs' : chs = npTranspose201 (normalizePixels a) := List.mem_singleton.1 hchs
  subst hchs'
  constructor
  · rw [npTranspose201, List.length_map, List.length_range]
    exact hchan
  · intro ch hch
    rw [npTranspose201, hchan] at hch
    obtain ⟨c, hc, rfl⟩ := List.mem_map.1 hch
    rw [List.mem_range] at hc
    constructor
    · simp [normalizePixels, hlen]
    · intro row hrow
      obtain ⟨brow, hbrow, rfl⟩ := List.mem_map.1 hrow
      obtain ⟨arow, harow, rfl⟩ := List.mem_map.1 hbrow
      obtain ⟨harlen, hapx⟩ := hrows arow harow
      constructor
      · simpa using harlen
      · intro x hx
        simp only [List.mem_map] at hx
        obtain ⟨bpx, hbpx, rfl⟩ := hx
        obtain ⟨px, hpx, rfl⟩ := hbpx
        obtain ⟨hpxlen, hval⟩ := hapx px hpx
        have hclen : c < (px.map (fun v => mkRat (Int.ofNat v) 255)).length := by
          rw [List.length_map, hpxlen]
          exact hc
        rw [List.getD_eq_getElem _ _ hclen, List.getElem_map]
        have hvmem : px[c] ∈ px := List.getElem_mem _
        have hvlt : px[c] < 256 := hval _ hvmem
        have hcast : (mkRat (Int.ofNat px[c]) 255 : ℚ) = ((px[c] : ℕ) : ℚ) / 255 := by
          rw [Rat.mkRat_eq_div]
          push_cast
          rfl
        refine ⟨⟨?_, ?_⟩, px[c], hvlt, hcast⟩
        · rw [hcast]
          positivity
        · rw [hcast]
          rw [div_le_one (by norm_num : (0:ℚ) < 255)]
          exact_mod_cast Nat.lt_succ_iff.1 (by exact_mod_cast hvlt)

/-- Claim C5 witness: the concrete 1×1 buffer `[[[7, 8, 9]]]` yields a
tensor with the batch dimension of length 1. -/
theorem toTensor_shape_unit_witness : (toTensor [[[7, 8, 9]]]).length = 1 :=
  (toTensor_shape_unit 1 1 [[[7, 8, 9]]] (by decide) (by decide) (by decide)).1

/-! ## Claim C6: load-once discipline of the loaded flag -/

/-- Claim C6: the loaded flag comes out of a failed load attempt exactly
as it went in (false stays false); it is true after an attempt only if it
was already true or the attempt completed every step (`ok`); a successful
attempt sets it and installs the session; and once the flag is true,
re-construction of the singleton (`__init__`) leaves the state untouched
— `predict`, `is_loaded` and `get_model_info` are pure reads of the state
by construction. -/
theorem predictor_load_once (st : PredictorState) (env : LoadEnv) :
    (st.model_loaded = true → initPredictor env st = (st, .ok ())) ∧
    ((loadModel env st).2 = .ok () →
      (loadModel env st).1.model_loaded = true ∧
      (loadModel env st).1.session.isSome = true) ∧
    (∀ e, (loadModel env st).2 = .error e →
      (loadModel env st).1.model_loaded = st.model_loaded) ∧
    ((loadModel env st).1.model_loaded = true →
      st.model_loaded = true ∨ (loadModel env st).2 = .ok ()) := by
  refine ⟨?_, ?_, ?_, ?_⟩
  · intro h
    rw [initPredictor, if_pos h]
  · intro h
    exact ⟨(loadModel_ok_fields h).1, (loadModel_ok_fields h).2.1⟩
  · intro e h
    exact loadModel_error_keeps_flag h
  · exact loadModel_flag_true

/-- Claim C6 witness: re-running `__init__` on an already-loaded concrete
state is a no-op even against an environment whose load would fail. -/
theorem predictor_load_once_witness :
    initPredictor ⟨true, .error "boom", none⟩
      { initialState with model_loaded := true } =
    ({ initialState with model_loaded := true }, .ok ()) :=
  (predictor_load_once { initialState with model_loaded := true }
    ⟨true, .error "boom", none⟩).1 rfl

/-! ## Claim C7: absent label file is not an error -/

/-- Claim C7: whether a load attempt succeeds never depends on the label
file — with the label file absent the attempt succeeds exactly when it
would with any label file present (degraded index-only mode, not an
error); and a successful load reads the label file line-by-line with
whitespace trimmed into `class_names`, leaving them empty when the file
is absent. -/
theorem load_label_file_optional (env : LoadEnv) (st : PredictorState)
    (lines : List String) :
    (((loadModel { env with label_file := none } st).2 = .ok ()) ↔
     ((loadModel { env with label_file := some lines } st).2 = .ok ())) ∧
    ((loadModel env st).2 = .ok () →
      (loadModel env st).1.class_names =
        (match env.label_file with
         | some ls => ls.map pyStrip
         | none => [])) := by
  constructor
  · rw [loadModel_ok_label_independent env st none,
      loadModel_ok_label_independent env st (some lines)]
  · intro h
    exact (loadModel_ok_fields h).2.2

/-- Claim C7 witness: a concrete successful load with a present label
file trims each line; the same load with the file absent also succeeds
and leaves the labels empty. -/
theorem load_label_file_optional_witness :
    (loadModel ⟨true, .ok ⟨[⟨"images", [some 1, some 3, some 224, some 224]⟩],
        fun _ => []⟩, some ["  cat", "dog "]⟩ initialState).1.class_names =
      ["  cat", "dog "].map pyStrip :=
  (load_label_file_optional ⟨true, .ok ⟨[⟨"images", [some 1, some 3, some 224,
      some 224]⟩, ], fun _ => []⟩, some ["  cat", "dog "]⟩ initialState []).2 rfl

/-! ## Claim C8: the not-loaded guard of predict -/

/-- Claim C8: for every input image, calling `predict` on a state that is
not loaded (`is_loaded` false: flag unset or session absent) fails with
the `RuntimeError("Model not loaded")`, and after a successful load
`predict` never fails with that error. -/
theorem predict_not_loaded_guard (S : Settings) (resize : Pixels → ℤ → ℤ → Pixels)
    (st : PredictorState) (img : Pixels) (env : LoadEnv) (st0 : PredictorState) :
    (is_loaded st = false → modelPredict S resize st img = .error notLoadedMsg) ∧
    ((loadModel env st0).2 = .ok () →
      modelPredict S resize (loadModel env st0).1 img ≠ .error notLoadedMsg) := by
  constructor
  · intro h
    rw [is_loaded, Bool.and_eq_false_iff] at h
    unfold modelPredict
    rcases hses : st.session with _ | sess
    · rcases hfl : st.model_loaded <;> simp
    · rcases hfl : st.model_loaded
      · simp
      · rcases h with h | h
        · rw [hfl] at h
          cases h
        · rw [hses] at h
          cases h
  · intro h hcontra
    obtain ⟨hfl, hses, _⟩ := loadModel_ok_fields h
    rcases hsome : (loadModel env st0).1.session with _ | sess
    · rw [hsome] at hses
      cases hses
    · rw [modelPredict, hfl, hsome] at hcontra
      dsimp only at hcontra
      rcases hr : rank ((sess.run (toTensor (resize img (loadModel env st0).1.input_width
          (loadModel env st0).1.input_height))).getD 0 [])
          (loadModel env st0).1.class_names
          S.model_confidence_threshold S.max_predictions with e | res
      · rw [hr] at hcontra
        have he : e = notLoadedMsg := by injection hcontra
        have hv : e = validationErrorMsg := rankLoop_error_msg hr
        rw [he] at hv
        exact (by decide : notLoadedMsg ≠ validationErrorMsg) hv
      · rw [hr] at hcontra
        cases hcontra

/-- Claim C8 witness: on the concrete initial (unloaded) state, predict
fails with the not-loaded error. -/
theorem predict_not_loaded_guard_witness :
    modelPredict defaultSettings (fun p _ _ => p) initialState [] =
      .error notLoadedMsg :=
  (predict_not_loaded_guard defaultSettings (fun p _ _ => p) initialState []
    ⟨false, .error "", none⟩ initialState).1 rfl

/-! ## Claim C3: error details by status class -/

/-- Claim C3 (counterexample): an unexpected model failure with message
"boom" reaches the client as a 500 whose `detail` is "boom" — the
endpoint's catch-all raises `HTTPException(500, str(e))`, rendered with
that detail by the HTTP-exception handler; the response is not the
generic `internal_error_handler` body "An unexpected error occurred". -/
theorem predict_500_detail_cex :
    predictEndpoint defaultSettings (fun _ => .ok []) (fun _ => .error "boom")
      "x.jpg" [] = .httpError 500 "boom" ∧
    "boom" ≠ internalHandlerDetail := by
  constructor
  · decide
  · decide

/-- Claim C3 (amended): a 500 response from the prediction endpoint
carries exactly the underlying exception's message as its detail (the
cause is included, not the generic "An unexpected error occurred" body,
which only `internal_error_handler` produces for exceptions that escape
the route uncaught — and the endpoint's catch-all prevents that), while
400-class responses carry the specific reason (extension or decode
detail) and 413 the size detail. -/
theorem predict_error_details (S : Settings)
    (dec : List (Fin 256) → Except String Pixels)
    (run : Pixels → Except String (List PredictionResult))
    (f : String) (c : List (Fin 256)) :
    (∀ d, predictEndpoint S dec run f c = .httpError 500 d →
      ∃ img, dec c = .ok img ∧ run img = .error d) ∧
    (∀ d, predictEndpoint S dec run f c = .httpError 400 d →
      d = invalidTypeDetail S ∨ ∃ e, d = "Invalid image file: " ++ e) ∧
    (∀ d, predictEndpoint S dec run f c = .httpError 413 d →
      d = tooLargeDetail S) := by
  unfold predictEndpoint
  split_ifs with hext hsize
  · refine ⟨?_, ?_, ?_⟩ <;> intro d h <;> simp at h
    exact h.symm
  · rcases hdec : dec c with e | img
    · dsimp only
      refine ⟨?_, ?_, ?_⟩ <;> intro d h <;> simp at h
      exact Or.inr ⟨e, h.symm⟩
    · dsimp only
      rcases hrun : run img with e | preds
      · dsimp only
        refine ⟨?_, ?_, ?_⟩ <;> intro d h <;> simp at h
        exact ⟨img, rfl, by rw [hrun, h]⟩
      · dsimp only
        refine ⟨?_, ?_, ?_⟩ <;> intro d h <;> simp at h
  · refine ⟨?_, ?_, ?_⟩ <;> intro d h <;> simp at h
    exact Or.inl h.symm

/-- Claim C3 witness: a concrete decode failure surfaces as a 400 whose
detail names the decode error. -/
theorem predict_error_details_witness :
    ("Invalid image file: cannot identify image file" : String) =
      invalidTypeDetail defaultSettings ∨
    ∃ e, ("Invalid image file: cannot identify image file" : String) =
      "Invalid image file: " ++ e :=
  (predict_error_details defaultSettings
    (fun _ => .error "cannot identify image file") (fun _ => .ok [])
    "x.jpg" []).2.1 "Invalid image file: cannot identify image file" (by decide)

/-! ## Claim C4: validation order and short-circuiting -/

/-- Claim C4: the endpoint validates in order with short-circuiting: a
filename whose lowered extension is not in the allowed set fails 400
(invalid type) regardless of size, decoder or model — in particular an
oversize file with a disallowed extension fails 400, not 413 — and an
allowed extension with oversize contents fails 413 regardless of decoder
or model. -/
theorem predict_validation_order (S : Settings)
    (dec : List (Fin 256) → Except String Pixels)
    (run : Pixels → Except String (List PredictionResult))
    (f : String) (c : List (Fin 256)) :
    (pyLower (pySuffix f) ∉ S.allowed_extensions →
      predictEndpoint S dec run f c = .httpError 400 (invalidTypeDetail S)) ∧
    (pyLower (pySuffix f) ∈ S.allowed_extensions → S.max_upload_size < c.length →
      predictEndpoint S dec run f c = .httpError 413 (tooLargeDetail S)) := by
  constructor
  · intro h
    rw [predictEndpoint, if_neg h]
  · intro h hsize
    rw [predictEndpoint, if_pos h, if_pos hsize]

/-- Claim C4 witness: a concrete oversize upload with a disallowed
extension fails with the invalid-type 400, not the 413, against any
decoder and model. -/
theorem predict_validation_order_witness :
    predictEndpoint { defaultSettings with max_upload_size := 0 }
      (fun _ => .ok []) (fun _ => .ok []) "a.txt" [0] =
    .httpError 400 (invalidTypeDetail { defaultSettings with max_upload_size := 0 }) :=
  (predict_validation_order { defaultSettings with max_upload_size := 0 }
    (fun _ => .ok []) (fun _ => .ok []) "a.txt" [0]).1 (by decide)

/-! ## Claim C9: pydantic validation of the confidence field -/

/-- Claim C9 (counterexample): a raw score of `1.00001` lies outside
`[0, 1]` and passes the `0.25` threshold, yet building the result does
NOT raise: the confidence is rounded to 4 decimals first, `1.00001`
rounds to `1.0`, which passes the `ge=0, le=1` validation, and the entry
is returned with confidence 1. -/
theorem result_out_of_range_score_cex :
    rank [mkRat 100001 100000] [] (mkRat 1 4) 5 = .ok [⟨"0", 1⟩] ∧
    ¬ (mkRat 100001 100000 ≤ 1) := by
  constructor
  · decide
  · decide

/-- Claim C9 (amended): constructing a `PredictionResult` validates the
ROUNDED confidence into `[0,1]`: every returned entry's confidence lies
in `[0,1]`; if the 4-decimal rounding of a top-K, threshold-passing raw
score lies outside `[0,1]`, the ranking raises the validation error
instead of clamping; and the pipeline surfaces a model-stage failure as a
500 carrying the error message rather than returning an out-of-range
confidence.  (Raw scores within `5·10⁻⁵` of the interval round into it
and are returned, as the counterexample shows.) -/
theorem rank_validates_confidence (s : List ℚ) (names : List String)
    (t : ℚ) (k : ℕ) :
    (∀ res, rank s names t k = .ok res →
      ∀ p ∈ res, 0 ≤ p.confidence ∧ p.confidence ≤ 1) ∧
    ((∃ i ∈ topIndices s k, t ≤ s.getD i 0 ∧
        ¬(0 ≤ pyRound4 (s.getD i 0) ∧ pyRound4 (s.getD i 0) ≤ 1)) →
      rank s names t k = .error validationErrorMsg) ∧
    (∀ (S : Settings) (dec : List (Fin 256) → Except String Pixels)
        (run : Pixels → Except String (List PredictionResult))
        (f : String) (c : List (Fin 256)) (img : Pixels) (msg : String),
      pyLower (pySuffix f) ∈ S.allowed_extensions →
      ¬ (S.max_upload_size < c.length) →
      dec c = .ok img → run img = .error msg →
      predictEndpoint S dec run f c = .httpError 500 msg) := by
  refine ⟨?_, ?_, ?_⟩
  · intro res h p hp
    rw [rankLoop_ok_eq h] at hp
    obtain ⟨i, hi, rfl⟩ := List.mem_map.1 hp
    obtain ⟨hiTop, hpass⟩ := List.mem_filter.1 hi
    exact rankLoop_ok_valid h i hiTop (of_decide_eq_true hpass)
  · rintro ⟨i, hi, hpass, hbad⟩
    rcases hr : rank s names t k with e | res
    · have he : e = validationErrorMsg := rankLoop_error_msg hr
      rw [he]
    · exact absurd (rankLoop_ok_valid hr i hi hpass) hbad
  · intro S dec run f c img msg hext hsize hdec hrun
    rw [predictEndpoint, if_pos hext, if_neg hsize, hdec]
    dsimp only
    rw [hrun]

/-- Claim C9 witness: a raw score of `1.5` rounds to `1.5`, outside
`[0,1]`, so the concrete ranking fails with the validation error. -/
theorem rank_validates_confidence_witness :
    rank [mkRat 3 2] [] (mkRat 1 4) 5 = .error validationErrorMsg :=
  (rank_validates_confidence [mkRat 3 2] [] (mkRat 1 4) 5).2.1
    ⟨0, by decide, by decide, by decide⟩

/-! ## Claim C10: filenames without an extension -/

/-- Claim C10: an upload whose filename has no dot-extension
(`Path(filename).suffix` empty) fails with the invalid-type 400 —
the empty string is never in the allowed extension set — before the size
check or the decoder can run (the conclusion holds for every decoder and
model oracle). -/
theorem predict_no_extension_rejected (S : Settings)
    (dec : List (Fin 256) → Except String Pixels)
    (run : Pixels → Except String (List PredictionResult))
    (f : String) (c : List (Fin 256))
    (h1 : pySuffix f = "") (h2 : "" ∉ S.allowed_extensions) :
    predictEndpoint S dec run f c = .httpError 400 (invalidTypeDetail S) := by
  have hlower : pyLower (pySuffix f) = "" := by
    rw [h1]
    rfl
  rw [predictEndpoint, hlower, if_neg h2]

/-- Claim C10 witness: the concrete dotless filename "noext" is rejected
with the invalid-type 400 under the default settings. -/
theorem predict_no_extension_rejected_witness :
    predictEndpoint defaultSettings (fun _ => .ok []) (fun _ => .ok [])
      "noext" [] = .httpError 400 (invalidTypeDetail defaultSettings) :=
  predict_no_extension_rejected defaultSettings (fun _ => .ok [])
    (fun _ => .ok []) "noext" [] (by decide) (by decide)

end ImageAPI
